import Mathlib

/-!
Verification of the WMS tile scraper core (src/app.py): the tile grid
partitioner, the geodesic area check, the CSV progress ledger, and the
resumable download pipeline. Floating-point values are embedded as exact
rationals; fallible operations return Option or Except; the external
geographiclib polygon computation is a function parameter of the embedding.
-/

/-- Bounding box, the list [minx, miny, maxx, maxy] of src/app.py embedded as
a structure with named fields in the same order. -/
structure BBox where
  minx : ℚ
  miny : ℚ
  maxx : ℚ
  maxy : ℚ
deriving DecidableEq, Repr

/-- Embedding of get_tile_bounds (src/app.py lines 20-34): uniform subdivision
of the full extent into 2 ^ zoom columns and rows, column x growing with X and
row y growing downward from maxy. -/
def get_tile_bounds (x y : ℤ) (zoom : ℕ) (bounds : BBox) : BBox :=
  let num_tiles : ℚ := 2 ^ zoom
  let tile_size_x : ℚ := (bounds.maxx - bounds.minx) / num_tiles
  let tile_size_y : ℚ := (bounds.maxy - bounds.miny) / num_tiles
  { minx := bounds.minx + (x : ℚ) * tile_size_x
    miny := bounds.maxy - ((y : ℚ) + 1) * tile_size_y
    maxx := bounds.minx + ((x : ℚ) + 1) * tile_size_x
    maxy := bounds.maxy - (y : ℚ) * tile_size_y }

/-- Error raised by calculate_area (src/app.py line 50); the spec calls it
InvalidGeometry. -/
inductive AreaError where
  | invalidGeometry
deriving DecidableEq, Repr

/-- Embedding of calculate_area (src/app.py lines 37-51). The geographiclib
polygon computation (Geodesic(radius, 0).Polygon() over the four corners of
bbox, lines 41-48) is external library code, embedded as the parameter
polygonCompute; a result of none stands for NaN, so the source check
math.isnan(area) or area <= 0 becomes the none branch plus the area <= 0
test, each raising the InvalidGeometry error. -/
def calculate_area (polygonCompute : BBox → ℚ → Option ℚ)
    (bbox : BBox) (radius : ℚ) : Except AreaError ℚ :=
  match polygonCompute bbox radius with
  | none => Except.error AreaError.invalidGeometry
  | some area =>
    if area ≤ 0 then Except.error AreaError.invalidGeometry
    else Except.ok area

/-- One CSV cell as written by the csv module: a string, a numeric (float)
value, a Python int, or None (serialized empty). The Python int(...) parse
succeeds only on the int form. -/
inductive CsvField where
  | str : String → CsvField
  | num : ℚ → CsvField
  | int : ℤ → CsvField
  | null : CsvField
deriving DecidableEq, Repr

/-- Python int(field) on a raw CSV cell: succeeds exactly on integer-formatted
cells. -/
def parse_int : CsvField → Option ℤ
  | CsvField.int z => some z
  | _ => none

/-- Embedding of get_last_xy_from_csv (src/app.py lines 54-65). The file is
none when it does not exist, otherwise the list of its rows, header included.
The result is none when the Python code would raise (IndexError on a short
last row, or ValueError from int on a non-integer cell). -/
def get_last_xy_from_csv (file : Option (List (List CsvField))) :
    Option (ℤ × ℤ) :=
  match file with
  | none => some (0, 0)
  | some rows =>
    if 1 < rows.length then
      match rows.getLast? with
      | none => some (0, 0)
      | some last_row =>
        match last_row[11]?, last_row[10]? with
        | some f11, some f10 =>
          match parse_int f11, parse_int f10 with
          | some lx, some ly => some (lx, ly)
          | _, _ => none
        | _, _ => none
    else some (0, 0)

/-- C3: for every column, row, zoom and full extent, get_tile_bounds returns
exactly the box [minX + column*w, maxY - (row+1)*h, minX + (column+1)*w,
maxY - row*h] with w = (maxX - minX) / 2 ^ zoom and h = (maxY - minY) / 2 ^ zoom;
moreover, when the extent is non-degenerate, the tile minX strictly increases
with the column and the tile maxY strictly decreases with the row (row 0 is the
topmost band). -/
theorem get_tile_bounds_formula (x y : ℤ) (zoom : ℕ) (b : BBox)
    (hx : b.minx < b.maxx) (hy : b.miny < b.maxy) :
    get_tile_bounds x y zoom b =
      { minx := b.minx + (x : ℚ) * ((b.maxx - b.minx) / 2 ^ zoom)
        miny := b.maxy - ((y : ℚ) + 1) * ((b.maxy - b.miny) / 2 ^ zoom)
        maxx := b.minx + ((x : ℚ) + 1) * ((b.maxx - b.minx) / 2 ^ zoom)
        maxy := b.maxy - (y : ℚ) * ((b.maxy - b.miny) / 2 ^ zoom) } ∧
    (get_tile_bounds x y zoom b).minx < (get_tile_bounds (x + 1) y zoom b).minx ∧
    (get_tile_bounds x (y + 1) zoom b).maxy < (get_tile_bounds x y zoom b).maxy := by
  have hpow : (0 : ℚ) < 2 ^ zoom := by positivity
  have hwx : (0 : ℚ) < (b.maxx - b.minx) / 2 ^ zoom := by
    apply div_pos _ hpow
    linarith
  have hwy : (0 : ℚ) < (b.maxy - b.miny) / 2 ^ zoom := by
    apply div_pos _ hpow
    linarith
  refine ⟨rfl, ?_, ?_⟩
  · simp only [get_tile_bounds]
    push_cast
    nlinarith [hwx]
  · simp only [get_tile_bounds]
    push_cast
    nlinarith [hwy]

/-- Witness for C3 at the concrete input x = -1, y = 2, zoom = 1, extent
(0, 0, 1, 1). -/
theorem get_tile_bounds_formula_witness :
    get_tile_bounds (-1) 2 1 ⟨0, 0, 1, 1⟩ =
      { minx := (0 : ℚ) + ((-1 : ℤ) : ℚ) * (((1 : ℚ) - 0) / 2 ^ 1)
        miny := (1 : ℚ) - (((2 : ℤ) : ℚ) + 1) * (((1 : ℚ) - 0) / 2 ^ 1)
        maxx := (0 : ℚ) + (((-1 : ℤ) : ℚ) + 1) * (((1 : ℚ) - 0) / 2 ^ 1)
        maxy := (1 : ℚ) - ((2 : ℤ) : ℚ) * (((1 : ℚ) - 0) / 2 ^ 1) } ∧
    (get_tile_bounds (-1) 2 1 ⟨0, 0, 1, 1⟩).minx <
      (get_tile_bounds (-1 + 1) 2 1 ⟨0, 0, 1, 1⟩).minx ∧
    (get_tile_bounds (-1) (2 + 1) 1 ⟨0, 0, 1, 1⟩).maxy <
      (get_tile_bounds (-1) 2 1 ⟨0, 0, 1, 1⟩).maxy :=
  get_tile_bounds_formula (-1) 2 1 ⟨0, 0, 1, 1⟩ (by norm_num) (by norm_num)

/-- C4: adjacent tiles share their edge coordinate exactly: the maxX of the
tile in column x equals the minX of the tile in column x + 1, and the minY of
the tile in row y equals the maxY of the tile in row y + 1; no gap and no
overlap. -/
theorem get_tile_bounds_adjacent (x y : ℤ) (zoom : ℕ) (b : BBox) :
    (get_tile_bounds x y zoom b).maxx = (get_tile_bounds (x + 1) y zoom b).minx ∧
    (get_tile_bounds x y zoom b).miny = (get_tile_bounds x (y + 1) zoom b).maxy := by
  constructor
  · simp only [get_tile_bounds]
    push_cast
    ring
  · simp only [get_tile_bounds]
    push_cast
    ring

/-- C10: for a full extent satisfying minx < maxx and miny < maxy, every tile
box produced by get_tile_bounds satisfies the same invariant, at every zoom
and every (possibly negative) column and row. -/
theorem get_tile_bounds_invariant (x y : ℤ) (zoom : ℕ) (b : BBox)
    (hx : b.minx < b.maxx) (hy : b.miny < b.maxy) :
    (get_tile_bounds x y zoom b).minx < (get_tile_bounds x y zoom b).maxx ∧
    (get_tile_bounds x y zoom b).miny < (get_tile_bounds x y zoom b).maxy := by
  have hpow : (0 : ℚ) < 2 ^ zoom := by positivity
  have hwx : (0 : ℚ) < (b.maxx - b.minx) / 2 ^ zoom := by
    apply div_pos _ hpow
    linarith
  have hwy : (0 : ℚ) < (b.maxy - b.miny) / 2 ^ zoom := by
    apply div_pos _ hpow
    linarith
  constructor
  · simp only [get_tile_bounds]
    nlinarith [hwx]
  · simp only [get_tile_bounds]
    nlinarith [hwy]

/-- Witness for C10 at x = -1, y = 3, zoom = 4, extent (-180, -85, 180, 85). -/
theorem get_tile_bounds_invariant_witness :
    (get_tile_bounds (-1) 3 4 ⟨-180, -85, 180, 85⟩).minx <
      (get_tile_bounds (-1) 3 4 ⟨-180, -85, 180, 85⟩).maxx ∧
    (get_tile_bounds (-1) 3 4 ⟨-180, -85, 180, 85⟩).miny <
      (get_tile_bounds (-1) 3 4 ⟨-180, -85, 180, 85⟩).maxy :=
  get_tile_bounds_invariant (-1) 3 4 ⟨-180, -85, 180, 85⟩ (by norm_num) (by norm_num)

/-- Moon radius constant of download_tiles (src/app.py line 231), 1737.4. -/
def moon_radius : ℚ := 17374 / 10

/-- Header row of the progress ledger (src/app.py lines 243-259). -/
def header_row : List CsvField :=
  [CsvField.str "IMG_PATH",
   CsvField.str "LL_LAT", CsvField.str "LL_LON",
   CsvField.str "UL_LAT", CsvField.str "UL_LON",
   CsvField.str "UR_LAT", CsvField.str "UR_LON",
   CsvField.str "LR_LAT", CsvField.str "LR_LON",
   CsvField.str "ZOOM", CsvField.str "ROW", CsvField.str "COL",
   CsvField.str "SQ_KM_AREA"]

/-- One appended ledger row exactly as written by csv_writer.writerow
(src/app.py lines 304-320): path, the eight corner coordinates drawn from the
tile box in source order, zoom, tile_y (ROW), tile_x (COL), and the area or
None. -/
def ledger_row (img_path : String) (tile_bbox : BBox) (zoom : ℕ)
    (tile_y tile_x : ℤ) (area : Option ℚ) : List CsvField :=
  [CsvField.str img_path,
   CsvField.num tile_bbox.miny, CsvField.num tile_bbox.minx,
   CsvField.num tile_bbox.maxy, CsvField.num tile_bbox.minx,
   CsvField.num tile_bbox.maxy, CsvField.num tile_bbox.maxx,
   CsvField.num tile_bbox.miny, CsvField.num tile_bbox.maxx,
   CsvField.int zoom, CsvField.int tile_y, CsvField.int tile_x,
   match area with
   | none => CsvField.null
   | some a => CsvField.num a]

/-- Tile column for linear index i: center_x + (x - 1) with
x = i div 3 by Python floor division (src/app.py lines 272-273). -/
def tile_x (i : ℤ) : ℤ := 1 + (Int.ediv i 3 - 1)

/-- Tile row for linear index i: center_y + (y - 1) with
y = i mod 3 by Python floor division (src/app.py lines 272-274). -/
def tile_y (i : ℤ) : ℤ := 1 + (Int.emod i 3 - 1)

/-- Area recorded for a tile: the calculate_area result, with the except
branch of src/app.py lines 298-302 mapping any error to None. -/
def tile_area (polygonCompute : BBox → ℚ → Option ℚ) (tile_bbox : BBox) :
    Option ℚ :=
  match calculate_area polygonCompute tile_bbox moon_radius with
  | Except.ok a => some a
  | Except.error _ => none

/-- Observable state of one download_tiles run: the ledger file rows (header
included), the image files saved keyed by tile coordinates, and the linear
indices at which a fetch was attempted. -/
structure RunState where
  file : List (List CsvField)
  images : List (ℤ × ℤ)
  fetches : List ℤ
deriving DecidableEq, Repr

/-- Body of the download loop for linear index i (src/app.py lines 271-320):
a fetch is always attempted; on fetch failure or decode failure the code
continues with no further effect; otherwise the image is saved and a ledger
row is appended, with a failed area computation recorded as None. -/
def tileStep (fetchOk decodeOk : ℤ → ℤ → Bool)
    (polygonCompute : BBox → ℚ → Option ℚ) (zoom : ℕ) (bounds : BBox)
    (st : RunState) (i : ℤ) : RunState :=
  let tx := tile_x i
  let ty := tile_y i
  let tile_bbox := get_tile_bounds tx ty zoom bounds
  let st1 : RunState := { st with fetches := st.fetches ++ [i] }
  if fetchOk tx ty then
    if decodeOk tx ty then
      let img_path := "tile_" ++ toString tx ++ "_" ++ toString ty
      { file := st1.file ++
          [ledger_row img_path tile_bbox zoom ty tx
            (tile_area polygonCompute tile_bbox)],
        images := st1.images ++ [(tx, ty)],
        fetches := st1.fetches }
    else st1
  else st1

/-- Python range(a, b) over integers: the list a, a+1, ..., b-1, empty when
b <= a. -/
def intRange (a b : ℤ) : List ℤ :=
  (List.range (b - a).toNat).map (fun n => a + n)

/-- Embedding of download_tiles (src/app.py lines 210-321), restricted to the
core pipeline: ensure the ledger exists with its header, read the resume
position from the last ledger row, compute start_index = last_x * 3 + last_y + 1,
and run the loop over range(start_index, 9). The external fetch
(wms.getmap) and decode (Image.open) collaborators are embedded as the
predicates fetchOk and decodeOk on tile coordinates; the result is none when
get_last_xy_from_csv raises on a malformed ledger. -/
def download_tiles (fetchOk decodeOk : ℤ → ℤ → Bool)
    (polygonCompute : BBox → ℚ → Option ℚ) (zoom : ℕ) (bounds : BBox)
    (file0 : Option (List (List CsvField))) : Option RunState :=
  let file1 :=
    match file0 with
    | none => [header_row]
    | some f => f
  match get_last_xy_from_csv (some file1) with
  | none => none
  | some (last_x, last_y) =>
    let start_index := last_x * 3 + last_y + 1
    some ((intRange start_index 9).foldl
      (tileStep fetchOk decodeOk polygonCompute zoom bounds)
      { file := file1, images := [], fetches := [] })

/-- Success predicate for the tile at linear index i: both the fetch and the
decode succeed. -/
def tileOk (fetchOk decodeOk : ℤ → ℤ → Bool) (i : ℤ) : Bool :=
  fetchOk (tile_x i) (tile_y i) && decodeOk (tile_x i) (tile_y i)

/-- Ledger row appended for the tile at linear index i when it succeeds. -/
def rowFor (polygonCompute : BBox → ℚ → Option ℚ) (zoom : ℕ) (bounds : BBox)
    (i : ℤ) : List CsvField :=
  ledger_row ("tile_" ++ toString (tile_x i) ++ "_" ++ toString (tile_y i))
    (get_tile_bounds (tile_x i) (tile_y i) zoom bounds) zoom
    (tile_y i) (tile_x i)
    (tile_area polygonCompute (get_tile_bounds (tile_x i) (tile_y i) zoom bounds))

lemma foldl_tileStep_spec (fetchOk decodeOk : ℤ → ℤ → Bool)
    (polygonCompute : BBox → ℚ → Option ℚ) (zoom : ℕ) (bounds : BBox) :
    ∀ (idxs : List ℤ) (st : RunState),
      idxs.foldl (tileStep fetchOk decodeOk polygonCompute zoom bounds) st =
        { file := st.file ++
            ((idxs.filter (tileOk fetchOk decodeOk)).map
              (rowFor polygonCompute zoom bounds)),
          images := st.images ++
            ((idxs.filter (tileOk fetchOk decodeOk)).map
              (fun i => (tile_x i, tile_y i))),
          fetches := st.fetches ++ idxs }
  | [], st => by simp
  | i :: idxs, st => by
    rw [List.foldl_cons,
      foldl_tileStep_spec fetchOk decodeOk polygonCompute zoom bounds idxs]
    by_cases hf : fetchOk (tile_x i) (tile_y i)
    · by_cases hd : decodeOk (tile_x i) (tile_y i)
      · simp [tileStep, tileOk, rowFor, hf, hd]
      · simp [tileStep, tileOk, hf, hd]
    · simp [tileStep, tileOk, hf]

/-- Ledger data row with nulls everywhere except ROW (index 10) and COL
(index 11), used to exercise the resume reader at concrete inputs. -/
def sample_row (c r : ℤ) : List CsvField :=
  [CsvField.null, CsvField.null, CsvField.null, CsvField.null, CsvField.null,
   CsvField.null, CsvField.null, CsvField.null, CsvField.null, CsvField.null,
   CsvField.int r, CsvField.int c]

lemma get_last_xy_resume (rows : List (List CsvField)) (lr : List CsvField)
    (c r : ℤ) (hlast : rows.getLast? = some lr)
    (h11 : lr[11]? = some (CsvField.int c))
    (h10 : lr[10]? = some (CsvField.int r)) :
    get_last_xy_from_csv (some (header_row :: rows)) = some (c, r) := by
  have hne : rows ≠ [] := by
    intro h
    rw [h] at hlast
    simp at hlast
  obtain ⟨a, l, rfl⟩ : ∃ a l, rows = a :: l := by
    cases rows with
    | nil => exact absurd rfl hne
    | cons a l => exact ⟨a, l, rfl⟩
  have hlen : 1 < (header_row :: a :: l).length := by
    simp
  have hlast2 : (header_row :: a :: l).getLast? = some lr := by
    rw [List.getLast?_cons_cons]
    exact hlast
  unfold get_last_xy_from_csv
  simp only [if_pos hlen, hlast2, h11, h10]
  rfl

lemma download_tiles_resume (fetchOk decodeOk : ℤ → ℤ → Bool)
    (polygonCompute : BBox → ℚ → Option ℚ) (zoom : ℕ) (bounds : BBox)
    (rows : List (List CsvField)) (lr : List CsvField) (c r : ℤ)
    (hlast : rows.getLast? = some lr)
    (h11 : lr[11]? = some (CsvField.int c))
    (h10 : lr[10]? = some (CsvField.int r)) :
    download_tiles fetchOk decodeOk polygonCompute zoom bounds
        (some (header_row :: rows)) =
      some { file := (header_row :: rows) ++
               (((intRange (c * 3 + r + 1) 9).filter
                   (tileOk fetchOk decodeOk)).map
                 (rowFor polygonCompute zoom bounds)),
             images := ((intRange (c * 3 + r + 1) 9).filter
                 (tileOk fetchOk decodeOk)).map
               (fun i => (tile_x i, tile_y i)),
             fetches := intRange (c * 3 + r + 1) 9 } := by
  unfold download_tiles
  simp only [get_last_xy_resume rows lr c r hlast h11 h10]
  rw [foldl_tileStep_spec]
  simp

lemma download_tiles_fresh (fetchOk decodeOk : ℤ → ℤ → Bool)
    (polygonCompute : BBox → ℚ → Option ℚ) (zoom : ℕ) (bounds : BBox) :
    download_tiles fetchOk decodeOk polygonCompute zoom bounds none =
      some { file := header_row ::
               (((intRange 1 9).filter (tileOk fetchOk decodeOk)).map
                 (rowFor polygonCompute zoom bounds)),
             images := ((intRange 1 9).filter (tileOk fetchOk decodeOk)).map
               (fun i => (tile_x i, tile_y i)),
             fetches := intRange 1 9 } := by
  unfold download_tiles
  have hxy : get_last_xy_from_csv (some [header_row]) = some (0, 0) := rfl
  simp only [hxy]
  rw [foldl_tileStep_spec]
  norm_num

/-- C1 (divergence evaluation): starting from no existing ledger, a run in
which every fetch and decode succeeds computes start_index =
0 * 3 + 0 + 1 = 1 and therefore attempts only the linear indices 1 through 8:
it produces 8 image files (the tile at (0, 0), offset (-1, -1), is never
fetched) and a ledger of 9 rows (header plus 8 data rows), not the 9 tiles,
9 images and 9 data rows the claim requires. -/
theorem download_tiles_fresh_run_skips_index_zero
    (polygonCompute : BBox → ℚ → Option ℚ) (zoom : ℕ) (bounds : BBox) :
    ∃ res : RunState,
      download_tiles (fun _ _ => true) (fun _ _ => true) polygonCompute zoom
          bounds none = some res ∧
      res.fetches = [1, 2, 3, 4, 5, 6, 7, 8] ∧
      res.images = [(0, 1), (0, 2), (1, 0), (1, 1), (1, 2), (2, 0), (2, 1),
        (2, 2)] ∧
      res.file.length = 9 := by
  refine ⟨_, download_tiles_fresh _ _ _ _ _, ?_, ?_, ?_⟩
  · rfl
  · rfl
  · show (header_row :: (((intRange 1 9).filter _).map _)).length = 9
    rw [List.length_cons, List.length_map]
    decide

/-- C2: for a ledger whose last data row stores COL = (k - 1) div 3 and
ROW = (k - 1) mod 3 with 1 <= k <= 9, a subsequent run computes
start_index = COL * 3 + ROW + 1 = k and attempts exactly the linear indices
k through 8, not 0 and not beyond k. -/
theorem download_tiles_partial_resume (k : ℕ) (hk1 : 1 ≤ k) (hk9 : k ≤ 9)
    (fetchOk decodeOk : ℤ → ℤ → Bool)
    (polygonCompute : BBox → ℚ → Option ℚ) (zoom : ℕ) (bounds : BBox)
    (rows : List (List CsvField)) (lr : List CsvField)
    (hlast : rows.getLast? = some lr)
    (h11 : lr[11]? = some (CsvField.int (((k - 1) / 3 : ℕ) : ℤ)))
    (h10 : lr[10]? = some (CsvField.int (((k - 1) % 3 : ℕ) : ℤ))) :
    ∃ res : RunState,
      download_tiles fetchOk decodeOk polygonCompute zoom bounds
          (some (header_row :: rows)) = some res ∧
      res.fetches = intRange (k : ℤ) 9 := by
  have heq : (((k - 1) / 3 : ℕ) : ℤ) * 3 + (((k - 1) % 3 : ℕ) : ℤ) + 1 =
      (k : ℤ) := by
    omega
  refine ⟨_, download_tiles_resume fetchOk decodeOk polygonCompute zoom bounds
    rows lr _ _ hlast h11 h10, ?_⟩
  simp only [heq]

/-- Witness for C2 at k = 4: the last ledger row stores COL = 1, ROW = 0, and
the next run attempts exactly the linear indices 4 through 8. -/
theorem download_tiles_partial_resume_witness :
    ∃ res : RunState,
      download_tiles (fun _ _ => true) (fun _ _ => true) (fun _ _ => none) 5
          ⟨0, 0, 1, 1⟩ (some (header_row :: [sample_row 1 0])) = some res ∧
      res.fetches = intRange ((4 : ℕ) : ℤ) 9 :=
  download_tiles_partial_resume 4 (by decide) (by decide)
    (fun _ _ => true) (fun _ _ => true) (fun _ _ => none) 5 ⟨0, 0, 1, 1⟩
    [sample_row 1 0] (sample_row 1 0) rfl rfl rfl

/-- C6: get_last_xy_from_csv returns (0, 0) when the ledger file is absent or
has no data row beyond the header; otherwise it returns the integer stored in
the last row at zero-based index 11 as the column and the one at index 10 as
the row. -/
theorem get_last_xy_from_csv_spec :
    get_last_xy_from_csv none = some (0, 0) ∧
    (∀ rows : List (List CsvField), rows.length ≤ 1 →
      get_last_xy_from_csv (some rows) = some (0, 0)) ∧
    (∀ (rows : List (List CsvField)) (lr : List CsvField) (c r : ℤ),
      1 < rows.length → rows.getLast? = some lr →
      lr[11]? = some (CsvField.int c) → lr[10]? = some (CsvField.int r) →
      get_last_xy_from_csv (some rows) = some (c, r)) := by
  refine ⟨rfl, ?_, ?_⟩
  · intro rows h
    have hnot : ¬1 < rows.length := by omega
    simp only [get_last_xy_from_csv, if_neg hnot]
  · intro rows lr c r hlen hlast h11 h10
    unfold get_last_xy_from_csv
    simp only [if_pos hlen, hlast, h11, h10]
    rfl

/-- Witness for C6: absent file, header-only file, and a two-row file whose
last row stores COL = 2 at index 11 and ROW = 1 at index 10. -/
theorem get_last_xy_from_csv_spec_witness :
    get_last_xy_from_csv none = some (0, 0) ∧
    get_last_xy_from_csv (some [header_row]) = some (0, 0) ∧
    get_last_xy_from_csv (some [header_row, sample_row 2 1]) = some (2, 1) :=
  ⟨get_last_xy_from_csv_spec.1,
   get_last_xy_from_csv_spec.2.1 [header_row] (by decide),
   get_last_xy_from_csv_spec.2.2 [header_row, sample_row 2 1]
     (sample_row 2 1) 2 1 (by decide) rfl rfl rfl⟩

/-- C7: when the last ledger row records linear index 8 (COL = 2, ROW = 2,
so the resume index is 9), a re-run performs zero fetch attempts, saves no
image, and leaves the ledger rows exactly as they were. -/
theorem download_tiles_noop_after_completion (fetchOk decodeOk : ℤ → ℤ → Bool)
    (polygonCompute : BBox → ℚ → Option ℚ) (zoom : ℕ) (bounds : BBox)
    (rows : List (List CsvField)) (lr : List CsvField)
    (hlast : rows.getLast? = some lr)
    (h11 : lr[11]? = some (CsvField.int 2))
    (h10 : lr[10]? = some (CsvField.int 2)) :
    download_tiles fetchOk decodeOk polygonCompute zoom bounds
        (some (header_row :: rows)) =
      some { file := header_row :: rows, images := [], fetches := [] } := by
  rw [download_tiles_resume fetchOk decodeOk polygonCompute zoom bounds rows lr
    2 2 hlast h11 h10]
  norm_num [intRange]

/-- Witness for C7: a ledger whose single data row stores COL = 2, ROW = 2 is
left unchanged by a re-run, with no fetches and no images. -/
theorem download_tiles_noop_after_completion_witness :
    download_tiles (fun _ _ => true) (fun _ _ => true) (fun _ _ => none) 5
        ⟨0, 0, 1, 1⟩ (some (header_row :: [sample_row 2 2])) =
      some { file := header_row :: [sample_row 2 2], images := [],
             fetches := [] } :=
  download_tiles_noop_after_completion (fun _ _ => true) (fun _ _ => true)
    (fun _ _ => none) 5 ⟨0, 0, 1, 1⟩ [sample_row 2 2] (sample_row 2 2)
    rfl rfl rfl

/-- C8: failures of individual fetches or decodes never abort a run: every
linear index from the resume index through 8 is still attempted in order, a
tile whose fetch or decode fails contributes no image file and no ledger row,
and every tile that succeeds is saved and recorded. -/
theorem download_tiles_skip_on_failure (fetchOk decodeOk : ℤ → ℤ → Bool)
    (polygonCompute : BBox → ℚ → Option ℚ) (zoom : ℕ) (bounds : BBox)
    (rows : List (List CsvField)) (lr : List CsvField) (c r : ℤ)
    (hlast : rows.getLast? = some lr)
    (h11 : lr[11]? = some (CsvField.int c))
    (h10 : lr[10]? = some (CsvField.int r)) :
    ∃ res : RunState,
      download_tiles fetchOk decodeOk polygonCompute zoom bounds
          (some (header_row :: rows)) = some res ∧
      res.fetches = intRange (c * 3 + r + 1) 9 ∧
      res.images = ((intRange (c * 3 + r + 1) 9).filter
          (tileOk fetchOk decodeOk)).map (fun i => (tile_x i, tile_y i)) ∧
      res.file = (header_row :: rows) ++
        (((intRange (c * 3 + r + 1) 9).filter (tileOk fetchOk decodeOk)).map
          (rowFor polygonCompute zoom bounds)) :=
  ⟨_, download_tiles_resume fetchOk decodeOk polygonCompute zoom bounds rows lr
      c r hlast h11 h10, rfl, rfl, rfl⟩

/-- Witness for C8: with the fetch failing exactly for the tile at (1, 1)
(linear index 4) and the resume starting at index 1, all eight indices are
still attempted and the seven successful tiles are saved. -/
theorem download_tiles_skip_on_failure_witness :
    ∃ res : RunState,
      download_tiles (fun a b => !(a == 1 && b == 1)) (fun _ _ => true)
          (fun _ _ => none) 5 ⟨0, 0, 1, 1⟩
          (some (header_row :: [sample_row 0 0])) = some res ∧
      res.fetches = [1, 2, 3, 4, 5, 6, 7, 8] ∧
      res.images = [(0, 1), (0, 2), (1, 0), (1, 2), (2, 0), (2, 1), (2, 2)] := by
  obtain ⟨res, h1, h2, h3, h4⟩ :=
    download_tiles_skip_on_failure (fun a b => !(a == 1 && b == 1))
      (fun _ _ => true) (fun _ _ => none) 5 ⟨0, 0, 1, 1⟩ [sample_row 0 0]
      (sample_row 0 0) 0 0 rfl rfl rfl
  refine ⟨res, h1, ?_, ?_⟩
  · rw [h2]
    rfl
  · rw [h3]
    rfl

/-- C9: when a tile is fetched, decoded and saved but its area computation
fails, the ledger row is still appended with the SQ_KM_AREA cell (index 12)
null: with every fetch and decode succeeding, a row is written for every
attempted index whatever polygonCompute does, and the area cell of the row
for index i is num a when calculate_area returns a and null when it raises. -/
theorem download_tiles_area_failure_row_still_written
    (polygonCompute : BBox → ℚ → Option ℚ) (zoom : ℕ) (bounds : BBox)
    (i : ℤ) :
    ∃ res : RunState,
      download_tiles (fun _ _ => true) (fun _ _ => true) polygonCompute zoom
          bounds none = some res ∧
      res.file = header_row ::
        ((intRange 1 9).map (rowFor polygonCompute zoom bounds)) ∧
      (rowFor polygonCompute zoom bounds i)[12]? =
        some (match calculate_area polygonCompute
                (get_tile_bounds (tile_x i) (tile_y i) zoom bounds)
                moon_radius with
              | Except.ok a => CsvField.num a
              | Except.error _ => CsvField.null) := by
  refine ⟨_, download_tiles_fresh _ _ _ _ _, rfl, ?_⟩
  unfold rowFor ledger_row tile_area
  cases calculate_area polygonCompute
      (get_tile_bounds (tile_x i) (tile_y i) zoom bounds) moon_radius with
  | ok a => rfl
  | error e => rfl

/-- C5: calculate_area returns a strictly positive area or fails with the
InvalidGeometry error, and it fails exactly when the library value is NaN
(modelled none) or at most zero; in particular, whenever the geodesic library
assigns a degenerate box (minX = maxX or minY = maxY) a zero or NaN polygon
area, the call fails with InvalidGeometry rather than silently returning. -/
theorem calculate_area_spec (polygonCompute : BBox → ℚ → Option ℚ)
    (bbox : BBox) (radius : ℚ)
    (hdeg : bbox.minx = bbox.maxx ∨ bbox.miny = bbox.maxy →
      polygonCompute bbox radius = none ∨ polygonCompute bbox radius = some 0) :
    (∀ a, calculate_area polygonCompute bbox radius = Except.ok a → 0 < a) ∧
    (calculate_area polygonCompute bbox radius =
        Except.error AreaError.invalidGeometry ↔
      polygonCompute bbox radius = none ∨
        ∃ a, polygonCompute bbox radius = some a ∧ a ≤ 0) ∧
    ((bbox.minx = bbox.maxx ∨ bbox.miny = bbox.maxy) →
      calculate_area polygonCompute bbox radius =
        Except.error AreaError.invalidGeometry) := by
  rcases hpc : polygonCompute bbox radius with _ | a
  · refine ⟨?_, ?_, ?_⟩ <;> simp [calculate_area, hpc]
  · by_cases ha : a ≤ 0
    · refine ⟨?_, ?_, ?_⟩ <;> simp [calculate_area, hpc, ha]
    · refine ⟨?_, ?_, ?_⟩
      · intro b h
        simp only [calculate_area, hpc, if_neg ha, Except.ok.injEq] at h
        subst h
        exact not_le.mp ha
      · simp only [calculate_area, hpc, if_neg ha]
        constructor
        · intro h
          exact absurd h (by simp)
        · rintro (h | ⟨b, hb, hble⟩)
          · exact absurd h (by simp)
          · simp only [Option.some.injEq] at hb
            subst hb
            exact absurd hble ha
      · intro h
        rcases hdeg h with h1 | h1 <;> rw [hpc] at h1
        · exact absurd h1 (by simp)
        · simp only [Option.some.injEq] at h1
          subst h1
          exact absurd le_rfl ha

/-- Witness for C5: a concrete library model assigning each box the planar
product of its extents gives the degenerate box (0, 0, 0, 1) a zero area, and
calculate_area fails with InvalidGeometry on it. -/
theorem calculate_area_spec_witness :
    calculate_area (fun b _ => some ((b.maxx - b.minx) * (b.maxy - b.miny)))
        ⟨0, 0, 0, 1⟩ moon_radius = Except.error AreaError.invalidGeometry :=
  (calculate_area_spec (fun b _ => some ((b.maxx - b.minx) * (b.maxy - b.miny)))
      ⟨0, 0, 0, 1⟩ moon_radius (fun _ => Or.inr (by norm_num))).2.2
    (Or.inl rfl)
